import Mathlib

/-!
Verification of the channeld chat-rooms merge helper and of the channel-data
merge/fan-out contract described in the design document.

The first part embeds `ChatChannelData.Merge` from
`examples/chat-rooms/chatpb/merge.go`.  The payload element type and the
remaining generated fields of `ChatChannelData` are never inspected by the
merge code, so they are kept as type parameters `M` (a chat message) and `R`
(the rest of the generated struct).
-/

set_option autoImplicit false

universe u v

/-- Outcome of a Go function that returns an `error` and mutates its receiver.
`ok` and `errReturn` carry the receiver's state after the call; `panicked`
models a runtime panic (the call never returns). -/
inductive GoResult (α : Type u) where
  | ok : α → GoResult α
  | errReturn : String → α → GoResult α
  | panicked : String → GoResult α
  deriving Repr, DecidableEq

/-- The `channeldpb.ChannelDataMergeOptions` message.  `ListSizeLimit` is a
`uint32` in the proto; it is modelled as a `Nat`. -/
structure ChannelDataMergeOptions where
  ShouldReplaceList : Bool
  ListSizeLimit : Nat
  TruncateTop : Bool
  ShouldCheckRemovableMapField : Bool
  deriving Repr, DecidableEq

/-- The generated `chatpb.ChatChannelData` struct: the `ChatMessages` repeated
field, plus the remaining generated fields (abstracted as `rest`, of an
arbitrary type `R`, since `Merge` never reads or writes them). -/
structure ChatChannelData (M : Type u) (R : Type v) where
  ChatMessages : List M
  rest : R
  deriving Repr, DecidableEq

/-- A `proto.Message` as passed to `Merge`: either a `*ChatChannelData` or a
value of any other dynamic type (identified by a tag). -/
inductive ProtoMessage (M : Type u) (R : Type v) where
  | chatChannelData : ChatChannelData M R → ProtoMessage M R
  | otherMessage : String → ProtoMessage M R
  deriving Repr, DecidableEq

/-- The Go slice expression `s[:h]`.  Go permits `h` up to `cap(s)`; slicing
past the length faults whenever no spare capacity exists.  We model capacity
as equal to length, which is exact for the slices reaching this expression in
`Merge` at the inputs considered below (an empty literal, or a slice `append`
returned unchanged), so the fault is deterministic there. -/
def goSliceTo {α : Type u} (xs : List α) (h : Nat) : Option (List α) :=
  if h ≤ xs.length then some (xs.take h) else none

/-- `ChatChannelData.Merge` from `examples/chat-rooms/chatpb/merge.go`,
line by line.  The receiver `dst` is threaded explicitly; on success the new
receiver state is returned.  `start := len(dst.ChatMessages) -
int(options.ListSizeLimit)` followed by the clamp `if start < 0 { start = 0 }`
is truncated subtraction, i.e. `Nat` subtraction. -/
def ChatChannelData.Merge {M : Type u} {R : Type v}
    (dst : ChatChannelData M R) (src : ProtoMessage M R)
    (options : ChannelDataMergeOptions) :
    GoResult (ChatChannelData M R) :=
  match src with
  | .otherMessage _ => .errReturn "src is not a ChatChannelData" dst
  | .chatChannelData srcMsg =>
    let msgs :=
      if options.ShouldReplaceList then
        -- append([]*ChatMessage{}, srcMsg.ChatMessages...): a fresh copy
        srcMsg.ChatMessages
      else
        dst.ChatMessages ++ srcMsg.ChatMessages
    if 0 < options.ListSizeLimit then
      if options.TruncateTop then
        .ok (ChatChannelData.mk (msgs.drop (msgs.length - options.ListSizeLimit)) dst.rest)
      else
        match goSliceTo msgs options.ListSizeLimit with
        | some kept => .ok (ChatChannelData.mk kept dst.rest)
        | none => .panicked "runtime error: slice bounds out of range"
    else
      .ok (ChatChannelData.mk msgs dst.rest)

/-- The last `n` elements of a list (all of it when it is shorter). -/
def lastN {α : Type u} (n : Nat) (xs : List α) : List α :=
  xs.drop (xs.length - n)

/-- The list that `Merge` truncates: `src`'s list in replace mode, the
concatenation in append mode. -/
def combinedList {M : Type u} {R : Type v}
    (dst src : ChatChannelData M R) (options : ChannelDataMergeOptions) : List M :=
  if options.ShouldReplaceList then src.ChatMessages
  else dst.ChatMessages ++ src.ChatMessages

/-- Claim C1: the claim states that after a merge with `ListSizeLimit = L > 0`
the list length is `min(len(P.list)+len(Q.list), L)` in append mode.  At
`P.list = []`, `Q.list = []`, `L = 1`, `TruncateTop = false` the code slices
`dst.ChatMessages[:1]` on a list of length 0 and faults instead of producing
a list of length `min(0+0,1) = 0`. -/
theorem chatMerge_append_below_limit_faults :
    ChatChannelData.Merge (ChatChannelData.mk ([] : List String) ())
      (ProtoMessage.chatChannelData (ChatChannelData.mk [] ()))
      (ChannelDataMergeOptions.mk false 1 false false)
      = GoResult.panicked "runtime error: slice bounds out of range" := by
  rfl

/-- Claim C2: the claim states that the truncation slice
`dst.ChatMessages[:options.ListSizeLimit]` is always within bounds of the
post-append list.  At `dst.list = ["a"]`, `src.list = []`, `L = 2`,
`TruncateTop = false` the post-append list has length 1 < 2 and the slice is
out of bounds: the merge faults rather than returning. -/
theorem chatMerge_truncation_slice_oob :
    ChatChannelData.Merge (ChatChannelData.mk ["a"] ())
      (ProtoMessage.chatChannelData (ChatChannelData.mk ([] : List String) ()))
      (ChannelDataMergeOptions.mk false 2 false false)
      = GoResult.panicked "runtime error: slice bounds out of range" := by
  rfl

/-- Claim C9: the claim states that for every `src` that is a
`ChatChannelData` the merge returns nil regardless of the options.  In
replace mode with `src.list = []` and `ListSizeLimit = 1`,
`TruncateTop = false`, the replaced list has length 0 < 1 and the truncation
slice faults, so the merge does not return at all. -/
theorem chatMerge_replace_below_limit_faults :
    ChatChannelData.Merge (ChatChannelData.mk ["x"] ())
      (ProtoMessage.chatChannelData (ChatChannelData.mk ([] : List String) ()))
      (ChannelDataMergeOptions.mk true 1 false false)
      = GoResult.panicked "runtime error: slice bounds out of range" := by
  rfl

/-- Claim C3: whenever the combined (concatenated or replaced) list is longer
than the limit `L > 0`, the merge keeps exactly the last `L` elements when
`TruncateTop` is set and exactly the first `L` elements otherwise, and
succeeds. -/
theorem chatMerge_truncate_direction {M : Type u} {R : Type v}
    (dst src : ChatChannelData M R) (options : ChannelDataMergeOptions)
    (hL : 0 < options.ListSizeLimit)
    (hlen : options.ListSizeLimit < (combinedList dst src options).length) :
    ChatChannelData.Merge dst (ProtoMessage.chatChannelData src) options
      = GoResult.ok (ChatChannelData.mk
          (if options.TruncateTop then lastN options.ListSizeLimit (combinedList dst src options)
           else (combinedList dst src options).take options.ListSizeLimit)
          dst.rest) := by
  have hle : options.ListSizeLimit ≤ (combinedList dst src options).length :=
    Nat.le_of_lt hlen
  cases hTop : options.TruncateTop
  all_goals simp [ChatChannelData.Merge, goSliceTo, lastN, combinedList, hL, hTop] at hle ⊢
  all_goals simp [hle]

/-- Witness for C3 at scenario D's shape: `["a","b","c"] ++ ["d","e"]` with
limit 4 and `truncateTop` keeps the last four elements. -/
theorem chatMerge_truncate_direction_witness :
    ChatChannelData.Merge (ChatChannelData.mk ["a", "b", "c"] ())
      (ProtoMessage.chatChannelData (ChatChannelData.mk ["d", "e"] ()))
      (ChannelDataMergeOptions.mk false 4 true false)
      = GoResult.ok (ChatChannelData.mk ["b", "c", "d", "e"] ()) :=
  (chatMerge_truncate_direction (ChatChannelData.mk ["a", "b", "c"] ())
    (ChatChannelData.mk ["d", "e"] ())
    (ChannelDataMergeOptions.mk false 4 true false)
    (by decide) (by decide)).trans (by decide)

/-- Claim C4: merging a `src` of any other dynamic type returns the type
mismatch error and leaves `dst` exactly as it was, for all options. -/
theorem chatMerge_type_mismatch_preserves_dst {M : Type u} {R : Type v}
    (dst : ChatChannelData M R) (tag : String) (options : ChannelDataMergeOptions) :
    ChatChannelData.Merge dst (ProtoMessage.otherMessage tag) options
      = GoResult.errReturn "src is not a ChatChannelData" dst := by
  rfl

/-- Claim C8: with `ShouldReplaceList` set and no size limit, merging a
payload into itself returns it unchanged. -/
theorem chatMerge_replace_idempotent {M : Type u} {R : Type v}
    (P : ChatChannelData M R) (options : ChannelDataMergeOptions)
    (hRep : options.ShouldReplaceList = true)
    (hLim : options.ListSizeLimit = 0) :
    ChatChannelData.Merge P (ProtoMessage.chatChannelData P) options
      = GoResult.ok P := by
  simp [ChatChannelData.Merge, hRep, hLim]

/-- Witness for C8 at a concrete payload and options. -/
theorem chatMerge_replace_idempotent_witness :
    ChatChannelData.Merge (ChatChannelData.mk ["hi"] ())
      (ProtoMessage.chatChannelData (ChatChannelData.mk ["hi"] ()))
      (ChannelDataMergeOptions.mk true 0 true true)
      = GoResult.ok (ChatChannelData.mk ["hi"] ()) :=
  chatMerge_replace_idempotent (ChatChannelData.mk ["hi"] ())
    (ChannelDataMergeOptions.mk true 0 true true) rfl rfl

/-- Every merge of two chat payloads either succeeds with some list and the
receiver's other fields untouched, or faults in the truncation slice. -/
theorem chatMerge_shape {M : Type u} {R : Type v}
    (dst s : ChatChannelData M R) (options : ChannelDataMergeOptions) :
    (∃ l, ChatChannelData.Merge dst (ProtoMessage.chatChannelData s) options
        = GoResult.ok (ChatChannelData.mk l dst.rest))
    ∨ ChatChannelData.Merge dst (ProtoMessage.chatChannelData s) options
        = GoResult.panicked "runtime error: slice bounds out of range" := by
  simp only [ChatChannelData.Merge]
  split
  · split
    · exact Or.inl ⟨_, rfl⟩
    · split
      · exact Or.inl ⟨_, rfl⟩
      · exact Or.inr rfl
  · exact Or.inl ⟨_, rfl⟩

/-- Claim C10: every successful merge modifies only the `ChatMessages` field
of the receiver: the remaining fields come through unchanged (and the model
is a pure function of `src`, which is therefore never modified). -/
theorem chatMerge_frame_rest {M : Type u} {R : Type v}
    (dst : ChatChannelData M R) (src : ProtoMessage M R)
    (options : ChannelDataMergeOptions) (d' : ChatChannelData M R)
    (h : ChatChannelData.Merge dst src options = GoResult.ok d') :
    d'.rest = dst.rest := by
  cases src with
  | otherMessage t => exact absurd h (by simp [ChatChannelData.Merge])
  | chatChannelData s =>
      rcases chatMerge_shape dst s options with ⟨l, hm⟩ | hm
      · rw [hm] at h
        injection h with h1
        rw [← h1]
      · rw [hm] at h
        exact GoResult.noConfusion h

/-- Witness for C10: an append-mode merge that succeeds preserves the other
fields (here `rest = 7`). -/
theorem chatMerge_frame_rest_witness :
    (ChatChannelData.mk ["a", "b"] (7 : Nat)).rest
      = (ChatChannelData.mk ["a"] (7 : Nat)).rest :=
  chatMerge_frame_rest (ChatChannelData.mk ["a"] 7)
    (ProtoMessage.chatChannelData (ChatChannelData.mk ["b"] 9))
    (ChannelDataMergeOptions.mk false 0 false false)
    (ChatChannelData.mk ["a", "b"] 7) (by decide)

/-! ## Removable map merge

`mergeWithOptions` itself is not part of the sources here; only its tests are
(`TestDataMergeOptions`, `BenchmarkCustomMergeMap`).  Its map handling is
modelled from the spec below.  A Go map is modelled as an association list
with pairwise-distinct keys. -/

/-- The `channeldpb.TestMergeMessage_StringWrapper` value type of the `Kv`
map: a `removed` marker plus the content. -/
structure StringWrapper where
  Removed : Bool
  Content : String
  deriving Repr, DecidableEq

/-- Lookup of a key in a map modelled as an association list. -/
def lookupKey (k : Int) : List (Int × StringWrapper) → Option StringWrapper
  | [] => none
  | e :: es => if e.1 = k then some e.2 else lookupKey k es

/-- Deletion of a key (`delete(m, k)`). -/
def eraseKey (k : Int) : List (Int × StringWrapper) → List (Int × StringWrapper)
  | [] => []
  | e :: es => if e.1 = k then eraseKey k es else e :: eraseKey k es

/-- Map assignment `m[k] = v`: replaces any existing entry for `k`. -/
def setKey (k : Int) (v : StringWrapper) (m : List (Int × StringWrapper)) :
    List (Int × StringWrapper) :=
  (k, v) :: eraseKey k m

/-- Modelled from the spec: the map half of `mergeWithOptions`, which is not
among the sources (only its tests are).  "Map fields: default behavior
replaces by key.  If `shouldCheckRemovableMapField` and the map value type
has a boolean `removed` field, then for every src entry with `removed=true`,
delete the key from dst; entries with `removed=false` write-through as
usual." -/
def mergeKvRemovable (check : Bool) (dst src : List (Int × StringWrapper)) :
    List (Int × StringWrapper) :=
  src.foldl
    (fun acc e => if check && e.2.Removed then eraseKey e.1 acc else setKey e.1 e.2 acc)
    dst

theorem lookupKey_eraseKey_self (k : Int) (m : List (Int × StringWrapper)) :
    lookupKey k (eraseKey k m) = none := by
  induction m with
  | nil => rfl
  | cons e es ih =>
      by_cases h : e.1 = k
      · simpa [eraseKey, h] using ih
      · simpa [eraseKey, lookupKey, h] using ih

theorem lookupKey_eraseKey_ne (k k' : Int) (m : List (Int × StringWrapper))
    (h : k ≠ k') : lookupKey k (eraseKey k' m) = lookupKey k m := by
  induction m with
  | nil => rfl
  | cons e es ih =>
      by_cases he : e.1 = k'
      · simpa [eraseKey, lookupKey, he, Ne.symm h] using ih
      · simp only [eraseKey, lookupKey, if_neg he]
        by_cases hk : e.1 = k
        · simp [hk]
        · simpa [hk] using ih

theorem lookupKey_setKey_self (k : Int) (v : StringWrapper)
    (m : List (Int × StringWrapper)) : lookupKey k (setKey k v m) = some v := by
  simp [setKey, lookupKey]

theorem lookupKey_setKey_ne (k k' : Int) (v : StringWrapper)
    (m : List (Int × StringWrapper)) (h : k ≠ k') :
    lookupKey k (setKey k' v m) = lookupKey k m := by
  have : k' ≠ k := fun hk => h hk.symm
  simp [setKey, lookupKey, this, lookupKey_eraseKey_ne k k' m h]

theorem lookupKey_eq_none_of_not_mem (k : Int) (m : List (Int × StringWrapper))
    (h : k ∉ m.map Prod.fst) : lookupKey k m = none := by
  induction m with
  | nil => rfl
  | cons e es ih =>
      simp only [List.map_cons, List.mem_cons] at h
      push_neg at h
      have he : e.1 ≠ k := fun hk => h.1 hk.symm
      simpa [lookupKey, he] using ih h.2

/-- Unfolding one source entry of the removable-map merge. -/
theorem mergeKvRemovable_cons (c : Bool) (P rest : List (Int × StringWrapper))
    (k' : Int) (v : StringWrapper) :
    mergeKvRemovable c P ((k', v) :: rest)
      = mergeKvRemovable c
          (if c && v.Removed then eraseKey k' P else setKey k' v P) rest := by
  rfl

/-- Full characterisation of the removable-map merge: the result at a key is
src's entry unless marked removed (then absent), falling back to dst. -/
theorem lookupKey_mergeKvRemovable (P Q : List (Int × StringWrapper))
    (hQ : (Q.map Prod.fst).Nodup) (k : Int) :
    lookupKey k (mergeKvRemovable true P Q)
      = match lookupKey k Q with
        | some v => if v.Removed then none else some v
        | none => lookupKey k P := by
  induction Q generalizing P with
  | nil => rfl
  | cons e rest ih =>
      obtain ⟨k', v⟩ := e
      simp only [List.map_cons, List.nodup_cons] at hQ
      rw [mergeKvRemovable_cons true P rest k' v,
        ih (if true && v.Removed then eraseKey k' P else setKey k' v P) hQ.2]
      by_cases hk : k' = k
      · subst hk
        have hnone := lookupKey_eq_none_of_not_mem _ rest hQ.1
        cases hv : v.Removed
        · simp [hv, hnone, lookupKey, lookupKey_setKey_self]
        · simp [hv, hnone, lookupKey, lookupKey_eraseKey_self]
      · have hne : k ≠ k' := fun h => hk h.symm
        cases hv : v.Removed
        · simp [hv, lookupKey, hk, lookupKey_setKey_ne k k' v P hne,
            lookupKey_eraseKey_ne k k' P hne]
        · simp [hv, lookupKey, hk, lookupKey_setKey_ne k k' v P hne,
            lookupKey_eraseKey_ne k k' P hne]

/-- Claim C5: merging maps with `shouldCheckRemovableMapField` enabled yields
a map containing key `k` iff `k` is in `P` or in `Q` and not marked removed
in `Q`; a `removed=true` entry in src deletes the key, and a `removed=false`
entry writes through. -/
theorem mergeKvRemovable_membership (P Q : List (Int × StringWrapper))
    (hQ : (Q.map Prod.fst).Nodup) (k : Int) :
    ((lookupKey k (mergeKvRemovable true P Q)).isSome
      ↔ (((lookupKey k P).isSome ∨ (lookupKey k Q).isSome)
          ∧ ¬ ∃ v, lookupKey k Q = some v ∧ v.Removed = true))
    ∧ (∀ v, lookupKey k Q = some v → v.Removed = true →
        lookupKey k (mergeKvRemovable true P Q) = none)
    ∧ (∀ v, lookupKey k Q = some v → v.Removed = false →
        lookupKey k (mergeKvRemovable true P Q) = some v) := by
  rw [lookupKey_mergeKvRemovable P Q hQ k]
  cases hq : lookupKey k Q with
  | none => simp [hq]
  | some v =>
      cases hv : v.Removed
      · simp [hq, hv]
      · simp [hq, hv]

/-- Witness for C5 at scenario E: `dst.kv = {1:"aa", 2:"bb"}`,
`src.kv = {1:{removed}, 2:"bbb"}`: key 1 is deleted. -/
theorem mergeKvRemovable_membership_witness :
    lookupKey 1 (mergeKvRemovable true
      [(1, StringWrapper.mk false "aa"), (2, StringWrapper.mk false "bb")]
      [(1, StringWrapper.mk true ""), (2, StringWrapper.mk false "bbb")]) = none :=
  (mergeKvRemovable_membership
    [(1, StringWrapper.mk false "aa"), (2, StringWrapper.mk false "bb")]
    [(1, StringWrapper.mk true ""), (2, StringWrapper.mk false "bbb")]
    (by decide) 1).2.1 (StringWrapper.mk true "") (by decide) rfl

/-! ## ChannelData coalescing and fan-out

The `ChannelData` / fan-out engine is not among the sources here (only its
tests are), so it is modelled from the spec: payloads carry a repeated field
and a sparse scalar field, merged per the spec's field rules (with the
"post-step length exceeds the limit" guard on truncation). -/

/-- Modelled from the spec: a channel payload for the coalescing/fan-out
contract, with a repeated field `list` and a sparse scalar field `text`
(absent when `none`); the concrete engine is not among the sources. -/
structure SpecPayload where
  list : List String
  text : Option String
  deriving Repr, DecidableEq

/-- Modelled from the spec: "If `listSizeLimit > 0` and post-step length
exceeds the limit: if `truncateTop`: keep the last `limit` elements, else:
keep the first `limit` elements." -/
def specTruncate (o : ChannelDataMergeOptions) (xs : List String) : List String :=
  if 0 < o.ListSizeLimit ∧ o.ListSizeLimit < xs.length then
    if o.TruncateTop then lastN o.ListSizeLimit xs else xs.take o.ListSizeLimit
  else xs

/-- Modelled from the spec: the merge of one payload onto another under the
channel's merge options — repeated fields replace or append and are then
truncated; a scalar field set on src overwrites dst. -/
def specMerge (dst src : SpecPayload) (o : ChannelDataMergeOptions) : SpecPayload :=
  SpecPayload.mk
    (specTruncate o (if o.ShouldReplaceList then src.list else dst.list ++ src.list))
    (match src.text with
     | some t => some t
     | none => dst.text)

/-- Modelled from the spec: the empty payload that `SliceSince` folds the
pending updates into. -/
def emptySpecPayload : SpecPayload :=
  SpecPayload.mk [] none

/-- Modelled from the spec: folding a run of updates into a single payload
starting from the empty payload, under the channel's merge options. -/
def coalesce (o : ChannelDataMergeOptions) (us : List SpecPayload) : SpecPayload :=
  us.foldl (fun a u => specMerge a u o) emptySpecPayload

/-- Modelled from the spec: `SliceSince(cursorIndex)` — `(none, cursorIndex)`
when the cursor is at the end of the log, otherwise the coalesced tail of the
log and the new cursor `len(log)`. -/
def SliceSince (o : ChannelDataMergeOptions) (log : List SpecPayload) (k : Nat) :
    Option SpecPayload × Nat :=
  if k = log.length then (none, k)
  else (some (coalesce o (log.drop k)), log.length)

theorem lastN_all {α : Type u} (n : Nat) (xs : List α) (h : xs.length ≤ n) :
    lastN n xs = xs := by
  simp [lastN, Nat.sub_eq_zero_of_le h]

theorem lastN_eq {α : Type u} (n : Nat) (xs : List α) :
    lastN n xs = (xs.reverse.take n).reverse := by
  rw [List.take_reverse, List.reverse_reverse]
  rfl

theorem take_append_take {α : Type u} (L : Nat) (u v : List α) :
    (u ++ v.take L).take L = (u ++ v).take L := by
  rw [List.take_append_eq_append_take, List.take_append_eq_append_take,
    List.take_take]
  congr 1
  congr 1
  omega

theorem take_take_append {α : Type u} (L : Nat) (u v : List α) :
    (u.take L ++ v).take L = (u ++ v).take L := by
  rw [List.take_append_eq_append_take, List.take_append_eq_append_take,
    List.take_take, Nat.min_self, List.length_take]
  congr 1
  congr 1
  omega

theorem lastN_append_lastN {α : Type u} (L : Nat) (u v : List α) :
    lastN L (u ++ lastN L v) = lastN L (u ++ v) := by
  simp only [lastN_eq, List.reverse_append, List.reverse_reverse]
  rw [take_take_append]

theorem lastN_lastN_append {α : Type u} (L : Nat) (u v : List α) :
    lastN L (lastN L u ++ v) = lastN L (u ++ v) := by
  simp only [lastN_eq, List.reverse_append, List.reverse_reverse]
  rw [take_append_take]

theorem take_idem {α : Type u} (L : Nat) (xs : List α) :
    (xs.take L).take L = xs.take L := by
  rw [List.take_take, Nat.min_self]

theorem lastN_idem {α : Type u} (L : Nat) (xs : List α) :
    lastN L (lastN L xs) = lastN L xs := by
  simp only [lastN_eq, List.reverse_reverse]
  rw [take_idem]

/-- The guard in `specTruncate` is immaterial: truncation is plain
`take`/`lastN` once the limit is positive. -/
theorem specTruncate_eq (o : ChannelDataMergeOptions) (xs : List String) :
    specTruncate o xs
      = if 0 < o.ListSizeLimit then
          (if o.TruncateTop then lastN o.ListSizeLimit xs
           else xs.take o.ListSizeLimit)
        else xs := by
  unfold specTruncate
  by_cases hL : 0 < o.ListSizeLimit
  · by_cases hlen : o.ListSizeLimit < xs.length
    · simp [hL, hlen]
    · push_neg at hlen
      simp [hL, Nat.not_lt.mpr hlen, lastN_all o.ListSizeLimit xs hlen,
        List.take_of_length_le hlen]
  · simp [hL]

theorem specTruncate_idem (o : ChannelDataMergeOptions) (xs : List String) :
    specTruncate o (specTruncate o xs) = specTruncate o xs := by
  simp only [specTruncate_eq]
  by_cases hL : 0 < o.ListSizeLimit
  · cases hTop : o.TruncateTop
    · simp [hL, hTop, take_idem]
    · simp [hL, hTop, lastN_idem]
  · simp [hL]

theorem specTruncate_append_right (o : ChannelDataMergeOptions)
    (x y : List String) :
    specTruncate o (x ++ specTruncate o y) = specTruncate o (x ++ y) := by
  simp only [specTruncate_eq]
  by_cases hL : 0 < o.ListSizeLimit
  · cases hTop : o.TruncateTop
    · simp [hL, hTop, take_append_take]
    · simp [hL, hTop, lastN_append_lastN]
  · simp [hL]

theorem specTruncate_append_left (o : ChannelDataMergeOptions)
    (x y : List String) :
    specTruncate o (specTruncate o x ++ y) = specTruncate o (x ++ y) := by
  simp only [specTruncate_eq]
  by_cases hL : 0 < o.ListSizeLimit
  · cases hTop : o.TruncateTop
    · simp [hL, hTop, take_take_append]
    · simp [hL, hTop, lastN_lastN_append]
  · simp [hL]

/-- Modelled from the spec: per-(connection, channel) subscription state —
the fan-out cadence, the next fan-out deadline, whether the initial snapshot
has been delivered, and the cursor into the update log; the concrete engine
is not among the sources. -/
structure ChannelSub where
  fanOutInterval : Int
  nextFanOutAt : Int
  hasReceivedInitial : Bool
  cursorIndex : Nat
  deriving Repr, DecidableEq

/-- Modelled from the spec: one subscription step of the fan-out scheduler
(§4.4 pseudocode) — skip while the deadline has not elapsed; on the first
fire send a clone of `current` (the clone is the value itself in this pure
model) and move the cursor past the whole log; afterwards send the coalesced
`SliceSince` delta, or nothing when there is none; the deadline always
advances by the subscriber's interval on a fire. -/
def fanOutOne (o : ChannelDataMergeOptions) (current : SpecPayload)
    (log : List SpecPayload) (now : Int) (s : ChannelSub) :
    Option SpecPayload × ChannelSub :=
  if now < s.nextFanOutAt then (none, s)
  else if !s.hasReceivedInitial then
    (some current,
      ChannelSub.mk s.fanOutInterval (s.nextFanOutAt + s.fanOutInterval) true
        log.length)
  else
    match SliceSince o log s.cursorIndex with
    | (none, _) =>
        (none,
          ChannelSub.mk s.fanOutInterval (s.nextFanOutAt + s.fanOutInterval)
            s.hasReceivedInitial s.cursorIndex)
    | (some p, i) =>
        (some p,
          ChannelSub.mk s.fanOutInterval (s.nextFanOutAt + s.fanOutInterval)
            s.hasReceivedInitial i)

/-- Claim C7: when a subscriber's fan-out fires, the first delivery is the
channel's entire current merged payload (not the update log) and the cursor
is then set past all logged updates; every later firing with pending updates
delivers exactly the coalesced delta of the updates since the cursor and
advances the cursor to the end of the log. -/
theorem fanOut_first_fire_snapshot (o : ChannelDataMergeOptions)
    (current : SpecPayload) (log : List SpecPayload) (now : Int)
    (s : ChannelSub) (hfire : s.nextFanOutAt ≤ now) :
    (s.hasReceivedInitial = false →
      fanOutOne o current log now s
        = (some current,
            ChannelSub.mk s.fanOutInterval (s.nextFanOutAt + s.fanOutInterval)
              true log.length))
    ∧ (s.hasReceivedInitial = true → s.cursorIndex < log.length →
        (fanOutOne o current log now s).1
            = some (coalesce o (log.drop s.cursorIndex))
          ∧ (fanOutOne o current log now s).2.cursorIndex = log.length) := by
  have hnl : ¬ now < s.nextFanOutAt := not_lt.mpr hfire
  constructor
  · intro hinit
    simp [fanOutOne, hnl, hinit]
  · intro hinit hcur
    have hne : s.cursorIndex ≠ log.length := Nat.ne_of_lt hcur
    simp [fanOutOne, hnl, hinit, SliceSince, hne]

/-- Witness for C7: a fresh subscriber whose deadline has elapsed receives
the current payload as a snapshot and its cursor jumps past the one logged
update. -/
theorem fanOut_first_fire_snapshot_witness :
    fanOutOne (ChannelDataMergeOptions.mk false 0 false false)
      (SpecPayload.mk ["a"] (some "x")) [SpecPayload.mk ["b"] none] 100
      (ChannelSub.mk 50 100 false 0)
      = (some (SpecPayload.mk ["a"] (some "x")),
          ChannelSub.mk 50 150 true 1) :=
  (fanOut_first_fire_snapshot (ChannelDataMergeOptions.mk false 0 false false)
    (SpecPayload.mk ["a"] (some "x")) [SpecPayload.mk ["b"] none] 100
    (ChannelSub.mk 50 100 false 0) (by decide)).1 rfl

/-! ## Coalescing over the full payload model

`SpecPayload` above carries only the repeated and scalar categories; the
spec's field rules also include map fields.  The payload below models all
three categories and refutes the unconditional coalescing equivalence: a
`removed=true` entry deletes nothing from the empty payload `SliceSince`
folds into, so its deletion is lost in the coalesced payload. -/

/-- Modelled from the spec: a map-valued field of a payload, given by its
lookup function (a Go map is exactly its key-to-value association; per-entry
iteration acts independently per key). -/
def KvMap : Type :=
  Int → Option StringWrapper

/-- Modelled from the spec: the map-field merge rule — "default behavior
replaces by key.  If `shouldCheckRemovableMapField` ... for every src entry
with `removed=true`, delete the key from dst; entries with `removed=false`
write-through as usual", expressed per key. -/
def kvMerge (check : Bool) (dst src : KvMap) : KvMap :=
  fun k =>
    match src k with
    | some v => if check && v.Removed then none else some v
    | none => dst k

/-- Modelled from the spec: a channel payload carrying all three field
categories of §4.1 — a repeated field, a sparse scalar field and a map
field; the concrete engine is not among the sources. -/
structure SpecPayloadFull where
  list : List String
  text : Option String
  Kv : KvMap

/-- Modelled from the spec: the merge of one full payload onto another under
the channel's merge options — repeated fields replace or append and are then
truncated, a scalar set on src overwrites dst, and map fields merge per the
removable-map rule. -/
def specMergeFull (dst src : SpecPayloadFull) (o : ChannelDataMergeOptions) :
    SpecPayloadFull :=
  SpecPayloadFull.mk
    (specTruncate o (if o.ShouldReplaceList then src.list else dst.list ++ src.list))
    (match src.text with
     | some t => some t
     | none => dst.text)
    (kvMerge o.ShouldCheckRemovableMapField dst.Kv src.Kv)

/-- Modelled from the spec: the empty full payload `SliceSince` folds into. -/
def emptySpecPayloadFull : SpecPayloadFull :=
  SpecPayloadFull.mk [] none (fun _ => none)

/-- Modelled from the spec: coalescing a run of full-payload updates from
the empty payload. -/
def coalesceFull (o : ChannelDataMergeOptions) (us : List SpecPayloadFull) :
    SpecPayloadFull :=
  us.foldl (fun a u => specMergeFull a u o) emptySpecPayloadFull

/-- Modelled from the spec: `SliceSince(cursorIndex)` over full payloads. -/
def SliceSinceFull (o : ChannelDataMergeOptions) (log : List SpecPayloadFull)
    (k : Nat) : Option SpecPayloadFull × Nat :=
  if k = log.length then (none, k)
  else (some (coalesceFull o (log.drop k)), log.length)

/-- The destination payload of the counterexample: its map holds key 1. -/
def cexDst : SpecPayloadFull :=
  SpecPayloadFull.mk [] none
    (fun k => if k = 1 then some (StringWrapper.mk false "aa") else none)

/-- The single logged update of the counterexample: it deletes key 1. -/
def cexUpdate : SpecPayloadFull :=
  SpecPayloadFull.mk [] none
    (fun k => if k = 1 then some (StringWrapper.mk true "") else none)

/-- The counterexample's options: removable-map checking enabled. -/
def cexOptions : ChannelDataMergeOptions :=
  ChannelDataMergeOptions.mk false 0 false true

/-- Claim C6 as stated is false: with `shouldCheckRemovableMapField` enabled,
log = one update whose map entry has `removed=true` for key 1, cursor 0, and
a destination holding key 1, the individual merge deletes key 1 but the
coalesced payload of `SliceSince(0)` carries no deletion (folding the update
into the empty payload deletes nothing), so merging it leaves key 1 in
place. -/
theorem sliceSince_coalescing_counterexample :
    ¬ ((match (SliceSinceFull cexOptions [cexUpdate] 0).1 with
        | none => cexDst
        | some p => specMergeFull cexDst p cexOptions)
      = ([cexUpdate].drop 0).foldl
          (fun a u => specMergeFull a u cexOptions) cexDst) := by
  intro h
  have h1 : (match (SliceSinceFull cexOptions [cexUpdate] 0).1 with
      | none => cexDst
      | some p => specMergeFull cexDst p cexOptions).Kv 1
      = (([cexUpdate].drop 0).foldl
          (fun a u => specMergeFull a u cexOptions) cexDst).Kv 1 := by
    rw [h]
  exact absurd h1 (by decide)

theorem kvMerge_false_assoc (a b c : KvMap) :
    kvMerge false a (kvMerge false b c) = kvMerge false (kvMerge false a b) c := by
  funext k
  simp only [kvMerge]
  cases c k <;> cases b k <;> rfl

theorem kvMerge_false_empty (u : KvMap) :
    kvMerge false (fun _ => none) u = u := by
  funext k
  simp only [kvMerge]
  cases u k <;> rfl

/-- Without the removable-map option, merging full payloads is associative. -/
theorem specMergeFull_assoc (o : ChannelDataMergeOptions)
    (hc : o.ShouldCheckRemovableMapField = false) (a b c : SpecPayloadFull) :
    specMergeFull a (specMergeFull b c o) o
      = specMergeFull (specMergeFull a b o) c o := by
  unfold specMergeFull
  cases hRep : o.ShouldReplaceList
  · simp only [hRep, Bool.false_eq_true, if_false]
    congr 1
    · rw [specTruncate_append_right, specTruncate_append_left,
        List.append_assoc]
    · cases c.text <;> cases b.text <;> rfl
    · rw [hc, kvMerge_false_assoc]
  · simp only [hRep, if_true]
    congr 1
    · rw [specTruncate_idem]
    · cases c.text <;> cases b.text <;> rfl
    · rw [hc, kvMerge_false_assoc]

/-- Without the removable-map option, merging the empty payload first changes
nothing once another merge follows. -/
theorem specMergeFull_empty_absorb (o : ChannelDataMergeOptions)
    (hc : o.ShouldCheckRemovableMapField = false) (a u : SpecPayloadFull) :
    specMergeFull a (specMergeFull emptySpecPayloadFull u o) o
      = specMergeFull a u o := by
  unfold specMergeFull emptySpecPayloadFull
  cases hRep : o.ShouldReplaceList
  · simp only [hRep, Bool.false_eq_true, if_false]
    congr 1
    · rw [List.nil_append, specTruncate_append_right]
    · cases u.text <;> rfl
    · rw [hc, kvMerge_false_empty]
  · simp only [hRep, if_true]
    congr 1
    · rw [specTruncate_idem]
    · cases u.text <;> rfl
    · rw [hc, kvMerge_false_empty]

/-- Without the removable-map option, merging a folded run equals folding the
merges. -/
theorem specMergeFull_foldl (o : ChannelDataMergeOptions)
    (hc : o.ShouldCheckRemovableMapField = false) (us : List SpecPayloadFull)
    (a p : SpecPayloadFull) :
    specMergeFull a (us.foldl (fun x u => specMergeFull x u o) p) o
      = us.foldl (fun x u => specMergeFull x u o) (specMergeFull a p o) := by
  induction us generalizing p with
  | nil => rfl
  | cons v vs ih =>
      simp only [List.foldl_cons]
      rw [ih (specMergeFull p v o), specMergeFull_assoc o hc]

/-- Claim C6, amended: merging the coalesced payload returned by
`SliceSince(k)` into any destination equals merging the updates `log[k..]`
into it individually, in order, provided the channel's merge options do not
enable `shouldCheckRemovableMapField` (when `SliceSince` returns no payload,
nothing is merged). -/
theorem sliceSince_coalescing_amended (o : ChannelDataMergeOptions)
    (log : List SpecPayloadFull) (k : Nat) (dst : SpecPayloadFull)
    (hc : o.ShouldCheckRemovableMapField = false) (hk : k ≤ log.length) :
    (match (SliceSinceFull o log k).1 with
     | none => dst
     | some p => specMergeFull dst p o)
      = (log.drop k).foldl (fun a u => specMergeFull a u o) dst := by
  unfold SliceSinceFull
  by_cases h : k = log.length
  · simp [h, List.drop_length]
  · have hlt : k < log.length := lt_of_le_of_ne hk h
    have hne : log.drop k ≠ [] := by
      rw [Ne, List.drop_eq_nil_iff]
      omega
    obtain ⟨u, us, he⟩ := List.exists_cons_of_ne_nil hne
    simp only [h, if_false, he, List.foldl_cons]
    show specMergeFull dst
        ((u :: us).foldl (fun a u => specMergeFull a u o) emptySpecPayloadFull) o
      = us.foldl (fun a u => specMergeFull a u o) (specMergeFull dst u o)
    simp only [List.foldl_cons]
    rw [specMergeFull_foldl o hc, specMergeFull_empty_absorb o hc]

/-- Witness for the amended C6: two pending updates with map entries, cursor
0, append mode with limit 2 and `truncateTop`, removable-map checking off;
one coalesced merge agrees with the two individual merges. -/
theorem sliceSince_coalescing_amended_witness :
    (match (SliceSinceFull (ChannelDataMergeOptions.mk false 2 true false)
        [SpecPayloadFull.mk ["b"] none
            (fun k => if k = 1 then some (StringWrapper.mk false "x") else none),
         SpecPayloadFull.mk ["c"] (some "t") (fun _ => none)] 0).1 with
     | none => SpecPayloadFull.mk ["a"] (some "s") (fun _ => none)
     | some p => specMergeFull (SpecPayloadFull.mk ["a"] (some "s") (fun _ => none))
         p (ChannelDataMergeOptions.mk false 2 true false))
      = ([SpecPayloadFull.mk ["b"] none
            (fun k => if k = 1 then some (StringWrapper.mk false "x") else none),
          SpecPayloadFull.mk ["c"] (some "t") (fun _ => none)].drop 0).foldl
          (fun a u => specMergeFull a u (ChannelDataMergeOptions.mk false 2 true false))
          (SpecPayloadFull.mk ["a"] (some "s") (fun _ => none)) :=
  sliceSince_coalescing_amended (ChannelDataMergeOptions.mk false 2 true false)
    [SpecPayloadFull.mk ["b"] none
        (fun k => if k = 1 then some (StringWrapper.mk false "x") else none),
     SpecPayloadFull.mk ["c"] (some "t") (fun _ => none)] 0
    (SpecPayloadFull.mk ["a"] (some "s") (fun _ => none)) rfl (by decide)
